import Mathlib

/-!
Verification of the taskboard realtime client against its specification.

The development shallowly embeds the two services that implement the
board state store and the WebSocket client
(frontend/src/services/projectDataService.js and
frontend/src/services/websocketService.js, plus the Board component
handlers that call them), and proves or refutes the specified
properties about them.

JavaScript objects and Map instances used as key-value stores are
modelled as association lists (insertion order preserved, assignment
replaces the first matching key in place, new keys are appended at the
end, exactly as JS enumeration order behaves).
-/

namespace Taskboard

/-- Generic lookup in a key-value list, modelling `obj[key]` / `map.get(key)`:
returns the value at the first matching key, or none (JS undefined). -/
def jsGet {α β : Type} [DecidableEq α] (l : List (α × β)) (k : α) : Option β :=
  (l.find? (fun p => p.1 = k)).map (fun p => p.2)

/-- Generic update, modelling `obj[key] = v` / `map.set(key, v)`: replaces the
value at the first matching key in place, or appends a new entry at the end. -/
def jsSet {α β : Type} [DecidableEq α] : List (α × β) → α → β → List (α × β)
  | [], k, v => [(k, v)]
  | (k', v') :: rest, k, v =>
      if k' = k then (k, v) :: rest else (k', v') :: jsSet rest k v

/-- Keys of a key-value list, in enumeration order. -/
def jsKeys {α β : Type} (l : List (α × β)) : List α :=
  l.map (fun p => p.1)

theorem jsGet_jsSet_self {α β : Type} [DecidableEq α]
    (l : List (α × β)) (k : α) (v : β) : jsGet (jsSet l k v) k = some v := by
  induction l with
  | nil => simp [jsGet, jsSet, List.find?]
  | cons hd tl ih =>
      obtain ⟨k', v'⟩ := hd
      by_cases h : k' = k
      · simp [jsGet, jsSet, h, List.find?]
      · simpa [jsGet, jsSet, h, List.find?] using ih

theorem jsGet_jsSet_ne {α β : Type} [DecidableEq α]
    (l : List (α × β)) (k k' : α) (v : β) (h : k' ≠ k) :
    jsGet (jsSet l k v) k' = jsGet l k' := by
  induction l with
  | nil => simp [jsGet, jsSet, List.find?, Ne.symm h]
  | cons hd tl ih =>
      obtain ⟨k₀, v₀⟩ := hd
      by_cases hk : k₀ = k
      · subst hk
        simp [jsGet, jsSet, List.find?, Ne.symm h]
      · by_cases hk' : k₀ = k'
        · subst hk'
          simp [jsGet, jsSet, hk, List.find?]
        · simp only [jsGet, jsSet, hk, if_false, List.find?] at ih ⊢
          simpa [hk'] using ih

theorem jsKeys_jsSet_mem {α β : Type} [DecidableEq α]
    (l : List (α × β)) (k : α) (v : β) (h : k ∈ jsKeys l) :
    jsKeys (jsSet l k v) = jsKeys l := by
  induction l with
  | nil => simp [jsKeys] at h
  | cons hd tl ih =>
      obtain ⟨k', v'⟩ := hd
      by_cases hk : k' = k
      · simp [jsKeys, jsSet, hk]
      · have hmem : k ∈ jsKeys tl := by
          simp [jsKeys] at h
          rcases h with h | h
          · exact absurd h.symm hk
          · simpa [jsKeys] using h
        have ih' := ih hmem
        simp only [jsKeys, jsSet, hk, if_false, List.map_cons] at ih' ⊢
        rw [show (jsSet tl k v).map (fun p => p.1) = tl.map (fun p => p.1) from ih']

theorem jsGet_isSome_of_mem {α β : Type} [DecidableEq α]
    (l : List (α × β)) (k : α) (h : k ∈ jsKeys l) :
    ∃ v, jsGet l k = some v := by
  induction l with
  | nil => simp [jsKeys] at h
  | cons hd tl ih =>
      obtain ⟨k', v'⟩ := hd
      by_cases hk : k' = k
      · exact ⟨v', by simp [jsGet, List.find?, hk]⟩
      · have hmem : k ∈ jsKeys tl := by
          simp [jsKeys] at h
          rcases h with h | h
          · exact absurd h.symm hk
          · simpa [jsKeys] using h
        obtain ⟨v, hv⟩ := ih hmem
        exact ⟨v, by simpa [jsGet, List.find?, hk] using hv⟩

theorem jsSet_self_of_jsGet {α β : Type} [DecidableEq α]
    (l : List (α × β)) (k : α) (v : β) (h : jsGet l k = some v) :
    jsSet l k v = l := by
  induction l with
  | nil => simp [jsGet, List.find?] at h
  | cons hd tl ih =>
      obtain ⟨k', v'⟩ := hd
      by_cases hk : k' = k
      · subst hk
        simp [jsGet, List.find?] at h
        simp [jsSet, h]
      · simp [jsGet, List.find?, hk] at h
        simp [jsSet, hk]
        exact ih (by simpa [jsGet] using h)

/-- Task record, as stored in the board data of projectDataService.js. -/
structure Task where
  id : String
  title : String
  tag : String
  description : String
  due_date : String
  assignee_id : Nat
deriving DecidableEq, Repr

/-- Board of one project: a JS object mapping column names to ordered task
arrays. -/
abbrev Board := List (String × List Task)

/-- The fixed workflow columns, in the order the source declares them. -/
def columnNames : List String := ["TO DO", "IN PROGRESS", "IN REVIEW", "DONE"]

/-- Fresh empty board created by getProjectData for an unknown project. -/
def emptyBoard : Board :=
  [("TO DO", []), ("IN PROGRESS", []), ("IN REVIEW", []), ("DONE", [])]

/-- Number of tasks with the given id in one column. -/
def colCount (ts : List Task) (taskId : String) : Nat :=
  (ts.filter (fun t => t.id = taskId)).length

/-- Total number of occurrences of a task id across all columns of a board. -/
def taskCount (b : Board) (taskId : String) : Nat :=
  (b.map (fun p => colCount p.2 taskId)).sum

/-- Result of a move on one board: the (possibly partially mutated) board,
and whether the JS code threw a TypeError while performing it. -/
structure MoveResult where
  board : Board
  threw : Bool
deriving DecidableEq, Repr

/-- Board-level effect of ProjectDataService.addTaskToProject: the body guards
with `if (projectData[columnName])` and pushes the task at the end of the
column; a missing column makes the call a no-op. -/
def addTaskToBoard (b : Board) (columnName : String) (task : Task) : Board :=
  match jsGet b columnName with
  | some ts => jsSet b columnName (ts ++ [task])
  | none => b

/-- Board-level effect of ProjectDataService.moveTaskInProject.  The source
first evaluates `projectData[fromColumn]?.find(t => t.id === taskId)`
(optional chaining: a missing fromColumn yields undefined, so the guarded
body is skipped).  When the task is found it reassigns
`projectData[fromColumn]` to the filtered array and then calls
`projectData[toColumn].push(task)`; when toColumn is absent that member
access throws a TypeError with the fromColumn reassignment already applied. -/
def moveTaskInBoard (b : Board) (taskId fromColumn toColumn : String) :
    MoveResult :=
  match jsGet b fromColumn with
  | none => ⟨b, false⟩
  | some fromTasks =>
      match fromTasks.find? (fun t => t.id = taskId) with
      | none => ⟨b, false⟩
      | some task =>
          let b1 := jsSet b fromColumn (fromTasks.filter (fun t => ¬ t.id = taskId))
          match jsGet b1 toColumn with
          | none => ⟨b1, true⟩
          | some toTasks => ⟨jsSet b1 toColumn (toTasks ++ [task]), false⟩

/-- Board-level effect of ProjectDataService.deleteTaskFromProject: guarded by
`if (projectData[columnName])`, filters the task id out of the column. -/
def deleteTaskFromBoard (b : Board) (taskId columnName : String) : Board :=
  match jsGet b columnName with
  | some ts => jsSet b columnName (ts.filter (fun t => ¬ t.id = taskId))
  | none => b

/-- The projectsData Map of ProjectDataService: project id to board. -/
abbrev Store := List (Nat × Board)

/-- ProjectDataService.getProjectData: when the project id is unknown, an
empty four-column board is created and stored; the stored board is returned.
The returned store is the service state after the call. -/
def getProjectData (s : Store) (projectId : Nat) : Board × Store :=
  match jsGet s projectId with
  | some b => (b, s)
  | none => (emptyBoard, jsSet s projectId emptyBoard)

/-- Board held for a project after a getProjectData call. -/
def projectBoard (s : Store) (projectId : Nat) : Board :=
  (getProjectData s projectId).1

/-- ProjectDataService.addTaskToProject.  The JS method mutates the board
object returned by getProjectData in place and re-stores it through
updateProjectData; modelled by writing the updated board back. -/
def addTaskToProject (s : Store) (projectId : Nat) (columnName : String)
    (task : Task) : Store :=
  let bs := getProjectData s projectId
  match jsGet bs.1 columnName with
  | some ts => jsSet bs.2 projectId (jsSet bs.1 columnName (ts ++ [task]))
  | none => bs.2

/-- ProjectDataService.moveTaskInProject.  The board object is shared by
reference with the store, so even when the move throws mid-way the partially
mutated board is what the store holds; the Bool reports the throw. -/
def moveTaskInProject (s : Store) (projectId : Nat)
    (taskId fromColumn toColumn : String) : Store × Bool :=
  let bs := getProjectData s projectId
  let r := moveTaskInBoard bs.1 taskId fromColumn toColumn
  (jsSet bs.2 projectId r.board, r.threw)

/-- ProjectDataService.deleteTaskFromProject. -/
def deleteTaskFromProject (s : Store) (projectId : Nat)
    (taskId columnName : String) : Store :=
  let bs := getProjectData s projectId
  jsSet bs.2 projectId (deleteTaskFromBoard bs.1 taskId columnName)

/-- ProjectDataService.clearProjectData: resets a project to the four empty
columns. -/
def clearProjectData (s : Store) (projectId : Nat) : Store :=
  jsSet s projectId emptyBoard

/-- Project 1 board seeded by initializeDefaultData (Web Application
Development). -/
def projectAData : Board :=
  [("TO DO",
    [{ id := "PA-1", title := "User Authentication System", tag := "AUTHENTICATION",
       description := "Implement user login and registration system with JWT tokens",
       due_date := "2025-02-05", assignee_id := 1 },
     { id := "PA-2", title := "Database Schema Design", tag := "DATABASE",
       description := "Design and implement PostgreSQL database schema for user management",
       due_date := "2025-02-03", assignee_id := 2 },
     { id := "PA-3", title := "Frontend Component Library", tag := "FRONTEND",
       description := "Create reusable React components for the application",
       due_date := "2025-02-10", assignee_id := 3 }]),
   ("IN PROGRESS",
    [{ id := "PA-4", title := "REST API Development", tag := "BACKEND",
       description := "Develop REST API endpoints for CRUD operations",
       due_date := "2025-02-04", assignee_id := 6 },
     { id := "PA-5", title := "User Interface Mockups", tag := "DESIGN",
       description := "Create high-fidelity mockups for main application screens",
       due_date := "2025-02-02", assignee_id := 3 }]),
   ("IN REVIEW",
    [{ id := "PA-6", title := "Security Implementation", tag := "SECURITY",
       description := "Implement OAuth2 and security middleware",
       due_date := "2025-02-15", assignee_id := 2 },
     { id := "PA-7", title := "Unit Testing Setup", tag := "TESTING",
       description := "Set up Jest and testing framework for backend APIs",
       due_date := "2025-02-01", assignee_id := 7 }]),
   ("DONE",
    [{ id := "PA-8", title := "Project Setup & Configuration", tag := "SETUP",
       description := "Initialize project structure and development environment",
       due_date := "2024-01-30", assignee_id := 6 },
     { id := "PA-9", title := "Requirements Analysis", tag := "PLANNING",
       description := "Gather and document functional requirements",
       due_date := "2024-01-25", assignee_id := 1 }])]

/-- Project 2 board seeded by initializeDefaultData (E-commerce Platform). -/
def projectBData : Board :=
  [("TO DO",
    [{ id := "PB-1", title := "Product Catalog Frontend", tag := "FRONTEND",
       description := "Build responsive product catalog with search and filtering",
       due_date := "2025-02-06", assignee_id := 3 },
     { id := "PB-2", title := "Payment Gateway Integration", tag := "PAYMENT",
       description := "Integrate Stripe payment processing with checkout flow",
       due_date := "2024-03-01", assignee_id := 2 },
     { id := "PB-3", title := "Inventory Management System", tag := "BACKEND",
       description := "Develop inventory tracking and stock management APIs",
       due_date := "2024-02-28", assignee_id := 6 }]),
   ("IN PROGRESS",
    [{ id := "PB-4", title := "Shopping Cart Functionality", tag := "FRONTEND",
       description := "Implement add to cart, quantity updates, and cart persistence",
       due_date := "2025-02-04", assignee_id := 3 },
     { id := "PB-5", title := "Order Management Backend", tag := "BACKEND",
       description := "Create APIs for order processing and status tracking",
       due_date := "2024-02-20", assignee_id := 2 },
     { id := "PB-6", title := "Product Images & Media", tag := "DESIGN",
       description := "Design and implement product image gallery and zoom features",
       due_date := "2024-02-16", assignee_id := 8 }]),
   ("IN REVIEW",
    [{ id := "PB-7", title := "User Reviews & Ratings", tag := "FEATURE",
       description := "Allow users to rate and review products with moderation",
       due_date := "2024-02-22", assignee_id := 6 },
     { id := "PB-8", title := "Email Notifications", tag := "NOTIFICATION",
       description := "Send order confirmations and shipping notifications",
       due_date := "2024-02-19", assignee_id := 4 }]),
   ("DONE",
    [{ id := "PB-9", title := "Database Design", tag := "DATABASE",
       description := "Design e-commerce database schema for products, orders, users",
       due_date := "2024-02-05", assignee_id := 2 },
     { id := "PB-10", title := "Brand Identity & Logo", tag := "DESIGN",
       description := "Create brand guidelines and logo for e-commerce platform",
       due_date := "2024-02-01", assignee_id := 8 }])]

/-- Project 3 board seeded by initializeDefaultData (Mobile App
Development). -/
def projectCData : Board :=
  [("TO DO",
    [{ id := "PC-1", title := "Push Notifications System", tag := "MOBILE",
       description := "Implement Firebase push notifications for iOS and Android",
       due_date := "2024-02-28", assignee_id := 5 },
     { id := "PC-2", title := "Offline Data Sync", tag := "MOBILE",
       description := "Implement offline mode with data synchronization",
       due_date := "2024-03-05", assignee_id := 6 },
     { id := "PC-3", title := "App Store Optimization", tag := "MARKETING",
       description := "Prepare app store listings and optimize for discovery",
       due_date := "2024-03-10", assignee_id := 4 }]),
   ("IN PROGRESS",
    [{ id := "PC-4", title := "React Native Setup", tag := "MOBILE",
       description := "Initialize React Native project with navigation and state management",
       due_date := "2025-02-03", assignee_id := 6 },
     { id := "PC-5", title := "API Integration Layer", tag := "INTEGRATION",
       description := "Connect mobile app with backend REST APIs",
       due_date := "2024-02-24", assignee_id := 1 },
     { id := "PC-6", title := "User Authentication Flow", tag := "MOBILE",
       description := "Implement login, signup, and session management",
       due_date := "2024-02-20", assignee_id := 6 },
     { id := "PC-7", title := "Camera Integration", tag := "FEATURE",
       description := "Add photo capture and image processing features",
       due_date := "2024-02-26", assignee_id := 5 }]),
   ("IN REVIEW",
    [{ id := "PC-8", title := "App Icon & Splash Screen", tag := "DESIGN",
       description := "Design app icon and splash screen for both platforms",
       due_date := "2024-02-14", assignee_id := 8 }]),
   ("DONE",
    [{ id := "PC-9", title := "Market Research & Analysis", tag := "RESEARCH",
       description := "Analyze competitor apps and user behavior patterns",
       due_date := "2024-01-25", assignee_id := 4 },
     { id := "PC-10", title := "UI/UX Wireframes", tag := "DESIGN",
       description := "Create detailed wireframes and user flow diagrams",
       due_date := "2024-02-02", assignee_id := 8 },
     { id := "PC-11", title := "Technical Architecture", tag := "ARCHITECTURE",
       description := "Define mobile app architecture and technology stack",
       due_date := "2024-02-08", assignee_id := 7 }])]

/-- Service state right after the constructor ran initializeDefaultData. -/
def initialStore : Store :=
  [(1, projectAData), (2, projectBData), (3, projectCData)]

/-- States of the projectsData Map reachable through the board store
operations the realtime core uses, starting from the constructed service. -/
inductive ReachableStore : Store → Prop where
  | init : ReachableStore initialStore
  | get (s : Store) (projectId : Nat) (h : ReachableStore s) :
      ReachableStore (getProjectData s projectId).2
  | add (s : Store) (projectId : Nat) (columnName : String) (task : Task)
      (h : ReachableStore s) :
      ReachableStore (addTaskToProject s projectId columnName task)
  | move (s : Store) (projectId : Nat) (taskId fromColumn toColumn : String)
      (h : ReachableStore s) :
      ReachableStore (moveTaskInProject s projectId taskId fromColumn toColumn).1
  | del (s : Store) (projectId : Nat) (taskId columnName : String)
      (h : ReachableStore s) :
      ReachableStore (deleteTaskFromProject s projectId taskId columnName)
  | clear (s : Store) (projectId : Nat) (h : ReachableStore s) :
      ReachableStore (clearProjectData s projectId)

theorem taskCount_nil (tid : String) : taskCount [] tid = 0 := rfl

theorem taskCount_cons (k : String) (v : List Task) (tl : Board) (tid : String) :
    taskCount ((k, v) :: tl) tid = colCount v tid + taskCount tl tid := by
  simp [taskCount]

theorem taskCount_jsSet (b : Board) (c : String) (old ts : List Task)
    (tid : String) (h : jsGet b c = some old) :
    taskCount (jsSet b c ts) tid + colCount old tid
      = taskCount b tid + colCount ts tid := by
  induction b with
  | nil => simp [jsGet, List.find?] at h
  | cons hd tl ih =>
      obtain ⟨k, v⟩ := hd
      by_cases hk : k = c
      · subst hk
        simp [jsGet, List.find?] at h
        subst h
        simp [jsSet, taskCount_cons]
        omega
      · simp [jsGet, List.find?, hk] at h
        have ih' := ih (by simpa [jsGet] using h)
        simp [jsSet, hk, taskCount_cons]
        omega

theorem colCount_le_taskCount (b : Board) (c : String) (ts : List Task)
    (tid : String) (h : jsGet b c = some ts) :
    colCount ts tid ≤ taskCount b tid := by
  induction b with
  | nil => simp [jsGet, List.find?] at h
  | cons hd tl ih =>
      obtain ⟨k, v⟩ := hd
      by_cases hk : k = c
      · simp [jsGet, List.find?, hk] at h
        subst h
        simp [taskCount_cons]
      · simp [jsGet, List.find?, hk] at h
        have := ih (by simpa [jsGet] using h)
        simp [taskCount_cons]
        omega

theorem colCount_filter_out (ts : List Task) (tid : String) :
    colCount (ts.filter (fun t => ¬ t.id = tid)) tid = 0 := by
  simp [colCount, List.filter_filter]

theorem colCount_append_one (ts : List Task) (t : Task) (tid : String)
    (h : t.id = tid) : colCount (ts ++ [t]) tid = colCount ts tid + 1 := by
  simp [colCount, List.filter_append, h]

theorem find?_id_eq {ts : List Task} {tid : String} {t : Task}
    (h : ts.find? (fun x => x.id = tid) = some t) : t.id = tid := by
  have := List.find?_some h
  simpa using this

theorem one_le_colCount_of_find? {ts : List Task} {tid : String} {t : Task}
    (h : ts.find? (fun x => x.id = tid) = some t) : 1 ≤ colCount ts tid := by
  have hmem : t ∈ ts := List.mem_of_find?_eq_some h
  have hid : t.id = tid := find?_id_eq h
  have : t ∈ ts.filter (fun x => x.id = tid) := by
    simp [List.mem_filter, hmem, hid]
  have hlen := List.length_pos.mpr (List.ne_nil_of_mem this)
  simpa [colCount] using hlen

theorem mem_jsKeys_of_jsGet {α β : Type} [DecidableEq α]
    {l : List (α × β)} {k : α} {v : β} (h : jsGet l k = some v) :
    k ∈ jsKeys l := by
  unfold jsGet at h
  cases hf : l.find? (fun p => p.1 = k) with
  | none => simp [hf] at h
  | some p =>
      have hp : p.1 = k := by simpa using List.find?_some hf
      have hpm := List.mem_of_find?_eq_some hf
      exact hp ▸ List.mem_map_of_mem (fun q => q.1) hpm

theorem jsKeys_addTaskToBoard (b : Board) (c : String) (t : Task) :
    jsKeys (addTaskToBoard b c t) = jsKeys b := by
  unfold addTaskToBoard
  cases h : jsGet b c with
  | none => rfl
  | some ts => exact jsKeys_jsSet_mem b c _ (mem_jsKeys_of_jsGet h)

theorem jsKeys_moveTaskInBoard (b : Board) (tid fromColumn toColumn : String) :
    jsKeys (moveTaskInBoard b tid fromColumn toColumn).board = jsKeys b := by
  simp only [moveTaskInBoard]
  split
  · rfl
  next fromTasks h =>
    split
    · rfl
    next task hf =>
      split
      next h2 =>
        exact jsKeys_jsSet_mem b fromColumn _ (mem_jsKeys_of_jsGet h)
      next toTasks h2 =>
        show jsKeys (jsSet _ toColumn (toTasks ++ [task])) = jsKeys b
        rw [jsKeys_jsSet_mem _ toColumn _ (mem_jsKeys_of_jsGet h2)]
        exact jsKeys_jsSet_mem b fromColumn _ (mem_jsKeys_of_jsGet h)

theorem jsKeys_deleteTaskFromBoard (b : Board) (tid c : String) :
    jsKeys (deleteTaskFromBoard b tid c) = jsKeys b := by
  unfold deleteTaskFromBoard
  cases h : jsGet b c with
  | none => rfl
  | some ts => exact jsKeys_jsSet_mem b c _ (mem_jsKeys_of_jsGet h)

/-- Claim C1: on a board with the fixed columns, moving a task that occurs in
exactly one column completes without throwing and leaves it in exactly one
column again; when the task is found in fromColumn it is inserted into
toColumn and (for a distinct toColumn) no longer occurs in fromColumn.  The
operation is a single synchronous function, so no intermediate state in
which the task is in two columns or in none is observable. -/
theorem C1_move_keeps_task_in_exactly_one_column
    (b : Board) (tid fromColumn toColumn : String)
    (hkeys : jsKeys b = columnNames) (hto : toColumn ∈ columnNames)
    (hcount : taskCount b tid = 1) :
    (moveTaskInBoard b tid fromColumn toColumn).threw = false
    ∧ taskCount (moveTaskInBoard b tid fromColumn toColumn).board tid = 1
    ∧ (∀ task : Task,
        (jsGet b fromColumn).bind (fun ts => ts.find? (fun x => x.id = tid))
          = some task →
        ∃ toTasks,
          jsGet (moveTaskInBoard b tid fromColumn toColumn).board toColumn
            = some toTasks
          ∧ task ∈ toTasks
          ∧ (¬ fromColumn = toColumn →
              ∃ rest,
                jsGet (moveTaskInBoard b tid fromColumn toColumn).board
                  fromColumn = some rest
                ∧ colCount rest tid = 0)) := by
  simp only [moveTaskInBoard]
  split
  next h => exact ⟨rfl, hcount, by intro task htask; rw [h] at htask; simp at htask⟩
  next fromTasks h =>
    split
    next hf =>
      refine ⟨rfl, hcount, ?_⟩
      intro task htask
      rw [h] at htask
      simp [hf] at htask
    next task hf =>
      have htid : task.id = tid := find?_id_eq hf
      have h1 : 1 ≤ colCount fromTasks tid := one_le_colCount_of_find? hf
      have hcnt1 := taskCount_jsSet b fromColumn fromTasks
        (fromTasks.filter (fun t => ¬ t.id = tid)) tid h
      have hfil := colCount_filter_out fromTasks tid
      have hb1 : taskCount (jsSet b fromColumn
          (fromTasks.filter (fun t => ¬ t.id = tid))) tid = 0 := by omega
      have hto1 : toColumn ∈ jsKeys (jsSet b fromColumn
          (fromTasks.filter (fun t => ¬ t.id = tid))) := by
        rw [jsKeys_jsSet_mem b fromColumn _ (mem_jsKeys_of_jsGet h), hkeys]
        exact hto
      obtain ⟨toTasks0, hget⟩ := jsGet_isSome_of_mem _ toColumn hto1
      split
      next h2 => rw [hget] at h2; exact absurd h2 (by simp)
      next toTasks h2 =>
        have hle := colCount_le_taskCount _ toColumn toTasks tid h2
        have hcnt2 := taskCount_jsSet (jsSet b fromColumn
          (fromTasks.filter (fun t => ¬ t.id = tid))) toColumn toTasks
          (toTasks ++ [task]) tid h2
        have happ := colCount_append_one toTasks task tid htid
        have hgoal : taskCount (jsSet (jsSet b fromColumn
            (fromTasks.filter (fun t => ¬ t.id = tid))) toColumn
            (toTasks ++ [task])) tid = 1 := by omega
        refine ⟨rfl, hgoal, ?_⟩
        intro task2 htask2
        rw [h] at htask2
        simp only [Option.some_bind] at htask2
        rw [hf] at htask2
        have : task2 = task := by
          injection htask2 with hh
          exact hh.symm
        subst this
        refine ⟨toTasks ++ [task2], jsGet_jsSet_self _ toColumn _, by simp, ?_⟩
        intro hne
        refine ⟨fromTasks.filter (fun t => ¬ t.id = tid), ?_, hfil⟩
        rw [jsGet_jsSet_ne _ toColumn fromColumn _ hne]
        exact jsGet_jsSet_self b fromColumn _

theorem getProjectData_self (s : Store) (pid : Nat) :
    jsGet (getProjectData s pid).2 pid = some (getProjectData s pid).1 := by
  unfold getProjectData
  cases h : jsGet s pid with
  | some b => simpa using h
  | none => simpa using jsGet_jsSet_self s pid emptyBoard

theorem getProjectData_snd_ne (s : Store) (pid pid' : Nat) (h : pid' ≠ pid) :
    jsGet (getProjectData s pid).2 pid' = jsGet s pid' := by
  unfold getProjectData
  cases hg : jsGet s pid with
  | some b => rfl
  | none => simpa using jsGet_jsSet_ne s pid pid' emptyBoard h

theorem projectBoard_of_jsGet_eq (s s' : Store) (pid : Nat)
    (h : jsGet s pid = jsGet s' pid) : projectBoard s pid = projectBoard s' pid := by
  unfold projectBoard getProjectData
  rw [h]
  cases jsGet s' pid <;> rfl

theorem projectBoard_of_jsGet_some {s : Store} {pid : Nat} {b : Board}
    (h : jsGet s pid = some b) : projectBoard s pid = b := by
  unfold projectBoard getProjectData
  rw [h]

theorem jsGet_addTaskToBoard_self (b : Board) (c : String) (ts : List Task)
    (t : Task) (h : jsGet b c = some ts) :
    jsGet (addTaskToBoard b c t) c = some (ts ++ [t]) := by
  unfold addTaskToBoard
  rw [h]
  exact jsGet_jsSet_self b c (ts ++ [t])

theorem projectBoard_addTaskToProject (s : Store) (pid : Nat) (c : String)
    (t : Task) :
    projectBoard (addTaskToProject s pid c t) pid
      = addTaskToBoard (projectBoard s pid) c t := by
  have hb : projectBoard s pid = (getProjectData s pid).1 := rfl
  simp only [addTaskToProject]
  split
  next ts hget =>
    rw [projectBoard_of_jsGet_some (jsGet_jsSet_self _ pid _), hb]
    unfold addTaskToBoard
    rw [hget]
  next hget =>
    rw [projectBoard_of_jsGet_some (getProjectData_self s pid), hb]
    unfold addTaskToBoard
    rw [hget]

/-- Claim C2: with no explicit position, addTaskToProject pushes the created
task at the end of the target column; creating T1, T2, T3 in order in an
empty TO DO column yields the column order T1, T2, T3. -/
theorem C2_createtask_appends_to_column_end
    (s : Store) (pid : Nat) (c : String) (ts : List Task) (t t1 t2 t3 : Task)
    (hc : jsGet (projectBoard s pid) c = some ts)
    (h0 : jsGet (projectBoard s pid) "TO DO" = some []) :
    jsGet (projectBoard (addTaskToProject s pid c t) pid) c = some (ts ++ [t])
    ∧ jsGet (projectBoard (addTaskToProject (addTaskToProject
        (addTaskToProject s pid "TO DO" t1) pid "TO DO" t2) pid "TO DO" t3) pid)
        "TO DO" = some [t1, t2, t3] := by
  constructor
  · rw [projectBoard_addTaskToProject]
    exact jsGet_addTaskToBoard_self _ c ts t hc
  · have s1 := projectBoard_addTaskToProject s pid "TO DO" t1
    have g1 : jsGet (projectBoard (addTaskToProject s pid "TO DO" t1) pid)
        "TO DO" = some [t1] := by
      rw [s1]
      simpa using jsGet_addTaskToBoard_self _ "TO DO" [] t1 h0
    have g2 : jsGet (projectBoard (addTaskToProject (addTaskToProject s pid
        "TO DO" t1) pid "TO DO" t2) pid) "TO DO" = some [t1, t2] := by
      rw [projectBoard_addTaskToProject]
      simpa using jsGet_addTaskToBoard_self _ "TO DO" [t1] t2 g1
    rw [projectBoard_addTaskToProject]
    simpa using jsGet_addTaskToBoard_self _ "TO DO" [t1, t2] t3 g2

/-- Concrete instantiation of the append property on the seeded store:
three tasks created in the cleared project 1 land in TO DO in creation
order. -/
theorem C2_createtask_appends_to_column_end_witness :
    jsGet (projectBoard (addTaskToProject (addTaskToProject (addTaskToProject
        (clearProjectData initialStore 1) 1 "TO DO"
        { id := "T1", title := "t1", tag := "", description := "",
          due_date := "", assignee_id := 0 }) 1 "TO DO"
        { id := "T2", title := "t2", tag := "", description := "",
          due_date := "", assignee_id := 0 }) 1 "TO DO"
        { id := "T3", title := "t3", tag := "", description := "",
          due_date := "", assignee_id := 0 }) 1) "TO DO"
      = some
        [{ id := "T1", title := "t1", tag := "", description := "",
           due_date := "", assignee_id := 0 },
         { id := "T2", title := "t2", tag := "", description := "",
           due_date := "", assignee_id := 0 },
         { id := "T3", title := "t3", tag := "", description := "",
           due_date := "", assignee_id := 0 }] := by
  have h := C2_createtask_appends_to_column_end (clearProjectData initialStore 1)
    1 "TO DO" []
    { id := "T0", title := "", tag := "", description := "",
      due_date := "", assignee_id := 0 }
    { id := "T1", title := "t1", tag := "", description := "",
      due_date := "", assignee_id := 0 }
    { id := "T2", title := "t2", tag := "", description := "",
      due_date := "", assignee_id := 0 }
    { id := "T3", title := "t3", tag := "", description := "",
      due_date := "", assignee_id := 0 }
    (by decide) (by decide)
  exact h.2

/-- Claim C3 counterexample: moving a task id that is not in the source
column completes with no error of any kind (the Bool result records the
only failure channel the code has, a thrown TypeError) and the store is
returned unchanged; no NotFoundError or any other error signal exists in
moveTaskInProject, contrary to the claim that the operation fails. -/
theorem C3_counterexample_absent_move_is_silent :
    moveTaskInProject initialStore 1 "NOPE" "TO DO" "DONE"
      = (initialStore, false) := by decide

/-- Claim C3 amended: a MoveTask whose taskId is not currently in fromColumn
leaves every project board unchanged and raises no error: the operation is
a silent no-op rather than a NotFoundError failure. -/
theorem C3_amended_absent_move_is_noop_without_error
    (s : Store) (pid : Nat) (tid fromColumn toColumn : String)
    (habsent : ∀ ts, jsGet (projectBoard s pid) fromColumn = some ts →
        ts.find? (fun t => t.id = tid) = none) :
    (moveTaskInProject s pid tid fromColumn toColumn).2 = false
    ∧ (moveTaskInProject s pid tid fromColumn toColumn).1
        = (getProjectData s pid).2
    ∧ ∀ pid', projectBoard (moveTaskInProject s pid tid fromColumn toColumn).1
        pid' = projectBoard s pid' := by
  have hmove : moveTaskInBoard (getProjectData s pid).1 tid fromColumn toColumn
      = ⟨(getProjectData s pid).1, false⟩ := by
    simp only [moveTaskInBoard]
    split
    · rfl
    next fromTasks hget =>
      rw [habsent fromTasks (by exact hget)]
  have hstore : (moveTaskInProject s pid tid fromColumn toColumn).1
      = (getProjectData s pid).2 := by
    simp only [moveTaskInProject, hmove]
    exact jsSet_self_of_jsGet _ pid _ (getProjectData_self s pid)
  refine ⟨by simp only [moveTaskInProject, hmove], hstore, ?_⟩
  intro pid'
  rw [hstore]
  by_cases hp : pid' = pid
  · subst hp
    rw [projectBoard_of_jsGet_some (getProjectData_self s pid')]
    rfl
  · exact projectBoard_of_jsGet_eq _ _ _ (getProjectData_snd_ne s pid pid' hp)

/-- Concrete instantiation of the amended no-op property at the seeded
store. -/
theorem C3_amended_absent_move_is_noop_without_error_witness :
    (moveTaskInProject initialStore 2 "PB-99" "IN REVIEW" "DONE").2 = false
    ∧ projectBoard (moveTaskInProject initialStore 2 "PB-99" "IN REVIEW"
        "DONE").1 2 = projectBoard initialStore 2 := by
  have h := C3_amended_absent_move_is_noop_without_error initialStore 2 "PB-99"
    "IN REVIEW" "DONE" (by decide)
  exact ⟨h.1, h.2.2 2⟩

/-- Per-store form of the fixed-column invariant: every board held in the
projectsData Map has exactly the four workflow columns. -/
def StoreInv (s : Store) : Prop :=
  ∀ pid b, jsGet s pid = some b → jsKeys b = columnNames

theorem storeInv_jsSet {s : Store} {pid : Nat} {b : Board}
    (hs : StoreInv s) (hb : jsKeys b = columnNames) : StoreInv (jsSet s pid b) := by
  intro pid' b' h
  by_cases hp : pid' = pid
  · subst hp
    rw [jsGet_jsSet_self] at h
    injection h with h
    subst h
    exact hb
  · rw [jsGet_jsSet_ne s pid pid' b hp] at h
    exact hs pid' b' h

theorem storeInv_projectBoard {s : Store} (hs : StoreInv s) (pid : Nat) :
    jsKeys (projectBoard s pid) = columnNames := by
  unfold projectBoard getProjectData
  cases h : jsGet s pid with
  | some b => exact hs pid b h
  | none => rfl

theorem storeInv_getProjectData {s : Store} (hs : StoreInv s) (pid : Nat) :
    StoreInv (getProjectData s pid).2 := by
  unfold getProjectData
  cases h : jsGet s pid with
  | some b => exact hs
  | none => exact storeInv_jsSet hs (by decide)

theorem storeInv_initial : StoreInv initialStore := by
  intro pid b hb
  by_cases h1 : pid = 1
  · subst h1
    simp [initialStore, jsGet, List.find?] at hb
    subst hb
    decide
  by_cases h2 : pid = 2
  · subst h2
    simp [initialStore, jsGet, List.find?] at hb
    subst hb
    decide
  by_cases h3 : pid = 3
  · subst h3
    simp [initialStore, jsGet, List.find?] at hb
    subst hb
    decide
  simp [initialStore, jsGet, List.find?, Ne.symm h1, Ne.symm h2, Ne.symm h3]
    at hb

theorem storeInv_of_reachable {s : Store} (h : ReachableStore s) : StoreInv s := by
  induction h with
  | init => exact storeInv_initial
  | get s pid h ih => exact storeInv_getProjectData ih pid
  | add s pid c t h ih =>
      simp only [addTaskToProject]
      split
      next ts hget =>
        refine storeInv_jsSet (storeInv_getProjectData ih pid) ?_
        rw [jsKeys_jsSet_mem _ c _ (mem_jsKeys_of_jsGet hget)]
        exact storeInv_projectBoard ih pid
      next hget => exact storeInv_getProjectData ih pid
  | move s pid tid f toCol h ih =>
      simp only [moveTaskInProject]
      refine storeInv_jsSet (storeInv_getProjectData ih pid) ?_
      rw [jsKeys_moveTaskInBoard]
      exact storeInv_projectBoard ih pid
  | del s pid tid c h ih =>
      simp only [deleteTaskFromProject]
      refine storeInv_jsSet (storeInv_getProjectData ih pid) ?_
      rw [jsKeys_deleteTaskFromBoard]
      exact storeInv_projectBoard ih pid
  | clear s pid h ih => exact storeInv_jsSet ih (by decide)

/-- Claim C8: in every reachable state of the board store, every project
board has exactly the columns TO DO, IN PROGRESS, IN REVIEW, DONE (none of
the operations creates or destroys a column), and a freshly loaded unknown
project is initialized with exactly these four empty columns. -/
theorem C8_reachable_boards_have_fixed_columns
    (s : Store) (pid : Nat) (h : ReachableStore s) :
    jsKeys (projectBoard s pid) = columnNames
    ∧ (jsGet s pid = none → projectBoard s pid = emptyBoard) := by
  refine ⟨storeInv_projectBoard (storeInv_of_reachable h) pid, ?_⟩
  intro hnone
  unfold projectBoard getProjectData
  rw [hnone]

/-- Concrete instantiation of the fixed-column invariant: the seeded store
with the previously unknown project 42. -/
theorem C8_reachable_boards_have_fixed_columns_witness :
    jsKeys (projectBoard initialStore 42) = columnNames
    ∧ (jsGet initialStore 42 = none → projectBoard initialStore 42 = emptyBoard) :=
  C8_reachable_boards_have_fixed_columns initialStore 42 ReachableStore.init

/-- JSON values exchanged over the WebSocket, with an undefined value for the result of a
member access that misses (JS undefined). -/
inductive Jsonv where
  | undefined
  | null
  | bool (b : Bool)
  | num (n : Int)
  | str (s : String)
  | arr (elems : List Jsonv)
  | obj (fields : List (String × Jsonv))
deriving Repr

/-- JS member access value.key: the field value of an object, undefined
otherwise. -/
def jMember (v : Jsonv) (k : String) : Jsonv :=
  match v with
  | .obj fields =>
      match jsGet fields k with
      | some x => x
      | none => .undefined
  | _ => .undefined

/-- JS strict equality of a value against a string literal, as used by the
switch in handleMessage. -/
def jEqStr (v : Jsonv) (s : String) : Bool :=
  match v with
  | .str t => t = s
  | _ => false

/-- Proleptic Gregorian civil date (year, month, day) from a day count since
1970-01-01, the standard conversion ECMAScript engines implement for the
UTC accessors of Date. -/
def civilFromDays (days : Nat) : Nat × Nat × Nat :=
  let z := days + 719468
  let era := z / 146097
  let doe := z % 146097
  let yoe := (doe - doe / 1460 + doe / 36524 - doe / 146096) / 365
  let doy := doe - (365 * yoe + yoe / 4 - yoe / 100)
  let mp := (5 * doy + 2) / 153
  let d := doy - (153 * mp + 2) / 5 + 1
  let m := if mp < 10 then mp + 3 else mp - 9
  let y := if m ≤ 2 then era * 400 + yoe + 1 else era * 400 + yoe
  (y, m, d)

/-- Decimal rendering zero-padded to width w, the field rendering used by
Date.prototype.toISOString for in-range values. -/
def padNum (w : Nat) (n : Nat) : String :=
  let s := toString n
  String.mk (List.replicate (w - s.length) '0') ++ s

/-- Canonical ISO8601 UTC rendering YYYY-MM-DDTHH:MM:SS.sssZ. -/
def isoRender (y mo d h mi se ms : Nat) : String :=
  padNum 4 y ++ "-" ++ padNum 2 mo ++ "-" ++ padNum 2 d ++ "T" ++
  padNum 2 h ++ ":" ++ padNum 2 mi ++ ":" ++ padNum 2 se ++ "." ++
  padNum 3 ms ++ "Z"

/-- Model of new Date(n).toISOString() for a non-negative epoch time n in
milliseconds (within the four-digit-year range the code operates in). -/
def toISOString (n : Nat) : String :=
  let c := civilFromDays (n / 86400000)
  isoRender c.1 c.2.1 c.2.2 (n / 3600000 % 24) (n / 60000 % 60)
    (n / 1000 % 60) (n % 1000)

/-- Strings in the canonical ISO8601 UTC form YYYY-MM-DDTHH:MM:SS.sssZ with
all date and time fields in range. -/
def IsISO8601UTC (s : String) : Prop :=
  ∃ y mo d h mi se ms : Nat,
    y ≤ 9999 ∧ 1 ≤ mo ∧ mo ≤ 12 ∧ 1 ≤ d ∧ d ≤ 31 ∧ h ≤ 23 ∧ mi ≤ 59 ∧
    se ≤ 59 ∧ ms ≤ 999 ∧ s = isoRender y mo d h mi se ms

theorem civilFromDays_bounds (days : Nat) (hd : days ≤ 2932896) :
    (civilFromDays days).1 ≤ 9999
    ∧ 1 ≤ (civilFromDays days).2.1 ∧ (civilFromDays days).2.1 ≤ 12
    ∧ 1 ≤ (civilFromDays days).2.2 ∧ (civilFromDays days).2.2 ≤ 31 := by
  simp only [civilFromDays]
  split_ifs <;> omega

/-- The readyState value WebSocket.OPEN. -/
def WS_OPEN : Nat := 1

/-- A WebSocket handle: its readyState and the log of envelopes passed to
send (the code sends the JSON serialization of each envelope). -/
structure Socket where
  readyState : Nat
  sent : List Jsonv

/-- Fields of WebSocketService, as initialized by its constructor; the
listeners Map holds functions and is modelled separately below. -/
structure WSState where
  ws : Option Socket
  url : String
  reconnectAttempts : Nat
  maxReconnectAttempts : Nat
  reconnectInterval : Nat
  isConnected : Bool
  onlineUsers : Jsonv

/-- State built by the WebSocketService constructor. -/
def initialWSState : WSState :=
  { ws := none, url := "ws://localhost:8000/ws", reconnectAttempts := 0,
    maxReconnectAttempts := 5, reconnectInterval := 3000,
    isConnected := false, onlineUsers := Jsonv.num 0 }

/-- WebSocketService.handleMessage: the switch on data.type.  Returns the
updated service state and the notifyListeners calls made, in order.  The
default branch only logs the unknown type. -/
def handleMessage (st : WSState) (data : Jsonv) : WSState × List (String × Jsonv) :=
  if jEqStr (jMember data "type") "task_created" then
    (st, [("taskCreated", jMember data "payload")])
  else if jEqStr (jMember data "type") "task_updated" then
    (st, [("taskUpdated", jMember data "payload")])
  else if jEqStr (jMember data "type") "task_moved" then
    (st, [("taskMoved", jMember data "payload")])
  else if jEqStr (jMember data "type") "task_deleted" then
    (st, [("taskDeleted", jMember data "payload")])
  else if jEqStr (jMember data "type") "user_count" then
    ({ st with onlineUsers := jMember (jMember data "payload") "count" },
      [("userCount", jMember data "payload")])
  else if jEqStr (jMember data "type") "board_sync" then
    (st, [("boardSync", jMember data "payload")])
  else
    (st, [])

/-- Consecutive inbound messages handled by the onmessage path, with all
notifyListeners calls collected in delivery order. -/
def processMessages (st : WSState) (msgs : List Jsonv) :
    WSState × List (String × Jsonv) :=
  match msgs with
  | [] => (st, [])
  | m :: rest =>
      let r := handleMessage st m
      let r2 := processMessages r.1 rest
      (r2.1, r.2 ++ r2.2)

/-- The inbound message types recognized by the switch in handleMessage. -/
def recognizedTypes : List String :=
  ["task_created", "task_updated", "task_moved", "task_deleted",
   "user_count", "board_sync"]

/-- Whether a type value matches one of the recognized message types. -/
def isRecognizedType (v : Jsonv) : Bool :=
  recognizedTypes.any (fun s => jEqStr v s)

/-- WebSocketService.attemptReconnect: below the attempt cap it increments
the counter and schedules connect after reconnectInterval milliseconds;
at the cap it only logs.  Result: new state, delay of the scheduled
connect (none when giving up), and the notifyListeners calls made (none
in either branch). -/
def attemptReconnect (st : WSState) :
    WSState × Option Nat × List (String × Jsonv) :=
  if st.reconnectAttempts < st.maxReconnectAttempts then
    ({ st with reconnectAttempts := st.reconnectAttempts + 1 },
      some st.reconnectInterval, [])
  else
    (st, none, [])

/-- WebSocketService.sendMessage: with an open socket, builds the envelope
with type, payload and the ISO timestamp of the current time and sends it;
otherwise logs a warning and does nothing. -/
def sendMessage (st : WSState) (ty : String) (payload : Jsonv) (now : Nat) :
    WSState :=
  match st.ws with
  | some sock =>
      if sock.readyState = WS_OPEN then
        let message : Jsonv := Jsonv.obj
          [("type", Jsonv.str ty), ("payload", payload),
           ("timestamp", Jsonv.str (toISOString now))]
        { st with ws := some { sock with sent := sock.sent ++ [message] } }
      else st
  | none => st

/-- WebSocketService.createTask. -/
def createTask (st : WSState) (task column projectId : Jsonv) (now : Nat) :
    WSState :=
  sendMessage st "create_task"
    (Jsonv.obj [("task", task), ("column", column), ("projectId", projectId)])
    now

/-- WebSocketService.updateTask. -/
def updateTask (st : WSState) (taskId updates projectId : Jsonv) (now : Nat) :
    WSState :=
  sendMessage st "update_task"
    (Jsonv.obj [("taskId", taskId), ("updates", updates),
                ("projectId", projectId)]) now

/-- WebSocketService.moveTask. -/
def moveTask (st : WSState)
    (taskId fromColumn toColumn position projectId : Jsonv) (now : Nat) :
    WSState :=
  sendMessage st "move_task"
    (Jsonv.obj [("taskId", taskId), ("fromColumn", fromColumn),
                ("toColumn", toColumn), ("position", position),
                ("projectId", projectId)]) now

/-- WebSocketService.deleteTask. -/
def deleteTask (st : WSState) (taskId column projectId : Jsonv) (now : Nat) :
    WSState :=
  sendMessage st "delete_task"
    (Jsonv.obj [("taskId", taskId), ("column", column),
                ("projectId", projectId)]) now

/-- WebSocketService.requestBoardSync. -/
def requestBoardSync (st : WSState) (projectId : Jsonv) (now : Nat) : WSState :=
  sendMessage st "request_board_sync" (Jsonv.obj [("projectId", projectId)]) now

theorem toISOString_isISO8601 (n : Nat) (h : n < 253402300800000) :
    IsISO8601UTC (toISOString n) := by
  have hd : n / 86400000 ≤ 2932896 := by omega
  obtain ⟨h1, h2, h3, h4, h5⟩ := civilFromDays_bounds (n / 86400000) hd
  exact ⟨(civilFromDays (n / 86400000)).1, (civilFromDays (n / 86400000)).2.1,
    (civilFromDays (n / 86400000)).2.2, n / 3600000 % 24, n / 60000 % 60,
    n / 1000 % 60, n % 1000, h1, h2, h3, h4, h5,
    by omega, by omega, by omega, by omega, rfl⟩

/-- A listener callback registered through subscribe: it receives the event
data and either returns normally or throws a JS exception, modelled by
Except. -/
def Callback : Type := Jsonv → Except String Unit

/-- The listeners Map of WebSocketService: event name to the array of
callbacks, in registration order. -/
abbrev Listeners := List (String × List Callback)

/-- WebSocketService.subscribe: creates the entry on first use
(listeners.set(event, [])) and then pushes the callback at the end of the
array for that event.  (The returned unsubscribe closure is not modelled;
no claim concerns it.) -/
def subscribe (ls : Listeners) (event : String) (cb : Callback) : Listeners :=
  match jsGet ls event with
  | some cbs => jsSet ls event (cbs ++ [cb])
  | none => jsSet (jsSet ls event []) event ([] ++ [cb])

/-- The forEach loop of notifyListeners: each callback is invoked inside its
own try/catch, so a throw is caught and logged and the iteration always
proceeds to the next callback; the per-callback outcomes are returned in
invocation order. -/
def runCallbacks : List Callback → Jsonv → List (Except String Unit)
  | [], _ => []
  | cb :: rest, data => cb data :: runCallbacks rest data

/-- WebSocketService.notifyListeners: runs the forEach loop over the
callbacks registered for the event; with no entry nothing runs.  The
return type is a plain list of outcomes: no callback exception escapes to
the caller. -/
def notifyListeners (ls : Listeners) (event : String) (data : Jsonv) :
    List (Except String Unit) :=
  match jsGet ls event with
  | some cbs => runCallbacks cbs data
  | none => []

theorem runCallbacks_eq_map (cbs : List Callback) (data : Jsonv) :
    runCallbacks cbs data = cbs.map (fun cb => cb data) := by
  induction cbs with
  | nil => rfl
  | cons cb rest ih => simp [runCallbacks, ih]

theorem handleMessage_notifications_const (st st' : WSState) (data : Jsonv) :
    (handleMessage st data).2 = (handleMessage st' data).2 := by
  simp only [handleMessage]
  split_ifs <;> rfl

/-- Claim C4 counterexample: the client session delivers whatever arrives;
feeding the same task_created message twice makes every subscriber observe
the same event twice, so events are not observed with no duplicates, and
the service state carries no last-delivered sequence number (WSState has no
such field to update). -/
theorem C4_counterexample_duplicate_message_delivered_twice :
    (processMessages initialWSState
      [Jsonv.obj [("type", Jsonv.str "task_created"),
                  ("payload", Jsonv.obj [("id", Jsonv.str "T1")])],
       Jsonv.obj [("type", Jsonv.str "task_created"),
                  ("payload", Jsonv.obj [("id", Jsonv.str "T1")])]]).2
    = [("taskCreated", Jsonv.obj [("id", Jsonv.str "T1")]),
       ("taskCreated", Jsonv.obj [("id", Jsonv.str "T1")])] := rfl

/-- Claim C4 amended: the client delivers events to listeners in exact
message-arrival order, one notification batch per message; it keeps no
sequence numbers and performs no gap or duplicate detection, so reordered
or duplicated messages are delivered exactly as received. -/
theorem C4_amended_events_delivered_in_arrival_order
    (st : WSState) (msgs : List Jsonv) :
    (processMessages st msgs).2
      = (msgs.map (fun m => (handleMessage st m).2)).flatten := by
  induction msgs generalizing st with
  | nil => rfl
  | cons m rest ih =>
      simp only [processMessages, List.map_cons, List.flatten_cons]
      rw [ih (handleMessage st m).1]
      have hmap : (rest.map (fun x => (handleMessage (handleMessage st m).1 x).2))
          = rest.map (fun x => (handleMessage st x).2) :=
        List.map_congr_left
          (fun x _ => handleMessage_notifications_const (handleMessage st m).1 st x)
      rw [hmap]

/-- Claim C5 counterexample: an unrecognized message type produces no error
acknowledgment at all; the handler returns with the state unchanged and an
empty notification list, and nothing is sent back to the server, contrary
to the claim that the offending session receives an error acknowledgment
for a ProtocolError. -/
theorem C5_counterexample_unknown_type_gets_no_error_ack :
    handleMessage initialWSState
      (Jsonv.obj [("type", Jsonv.str "bogus_type"), ("payload", Jsonv.obj [])])
    = (initialWSState, []) := rfl

/-- Claim C5 amended: an inbound message whose type is not one of the
recognized message types is silently ignored (only logged): the session
does not crash, the service state is unchanged, no listener is notified,
and no error acknowledgment or ProtocolError is produced. -/
theorem C5_amended_unknown_type_ignored (st : WSState) (data : Jsonv)
    (h : isRecognizedType (jMember data "type") = false) :
    handleMessage st data = (st, []) := by
  simp [isRecognizedType, recognizedTypes] at h
  obtain ⟨h1, h2, h3, h4, h5, h6⟩ := h
  simp [handleMessage, h1, h2, h3, h4, h5, h6]

/-- Concrete instantiation of the amended unknown-type behavior. -/
theorem C5_amended_unknown_type_ignored_witness :
    isRecognizedType (jMember (Jsonv.obj [("type", Jsonv.str "subscribe_all"),
        ("payload", Jsonv.obj [])]) "type") = false
    ∧ handleMessage initialWSState
        (Jsonv.obj [("type", Jsonv.str "subscribe_all"),
                    ("payload", Jsonv.obj [])])
      = (initialWSState, []) :=
  ⟨rfl, C5_amended_unknown_type_ignored initialWSState _ rfl⟩

/-- Claim C6 counterexample: the delays scheduled by two consecutive
reconnection attempts from the constructed state are both exactly 3000
milliseconds, so the delays between attempts are not exponentially
increasing. -/
theorem C6_counterexample_reconnect_delay_is_constant :
    (attemptReconnect initialWSState).2.1 = some 3000
    ∧ (attemptReconnect (attemptReconnect initialWSState).1).2.1 = some 3000 :=
  ⟨rfl, rfl⟩

/-- Claim C6 amended: after a drop the client retries with a fixed 3000 ms
delay between attempts, up to 5 attempts; once the cap is reached
attemptReconnect stops scheduling retries and only logs, notifying no
listener, so no persistent-failure state is surfaced to the user. -/
theorem C6_amended_fixed_delay_capped_retries (st : WSState) :
    (st.reconnectAttempts < st.maxReconnectAttempts →
      attemptReconnect st
        = ({ st with reconnectAttempts := st.reconnectAttempts + 1 },
            some st.reconnectInterval, []))
    ∧ (¬ st.reconnectAttempts < st.maxReconnectAttempts →
      attemptReconnect st = (st, none, []))
    ∧ initialWSState.reconnectInterval = 3000
    ∧ initialWSState.maxReconnectAttempts = 5 := by
  refine ⟨?_, ?_, rfl, rfl⟩ <;> intro h <;> simp [attemptReconnect, h]

/-- Concrete instantiation of the amended reconnection behavior: a first
attempt schedules a 3000 ms retry, and a state at the cap stops silently. -/
theorem C6_amended_fixed_delay_capped_retries_witness :
    attemptReconnect initialWSState
      = ({ initialWSState with reconnectAttempts := 1 }, some 3000, [])
    ∧ attemptReconnect { initialWSState with reconnectAttempts := 5 }
      = ({ initialWSState with reconnectAttempts := 5 }, none, []) :=
  ⟨(C6_amended_fixed_delay_capped_retries initialWSState).1 (by decide),
   (C6_amended_fixed_delay_capped_retries
      { initialWSState with reconnectAttempts := 5 }).2.1 (by decide)⟩

/-- Claim C7: with an open socket, sendMessage sends exactly one JSON
envelope whose fields are exactly type (the given string), payload (the
given object) and timestamp (the ISO8601 UTC rendering of the current
time). -/
theorem C7_sendMessage_sends_iso_envelope
    (st : WSState) (ty : String) (fields : List (String × Jsonv)) (now : Nat)
    (sock : Socket) (hws : st.ws = some sock)
    (hopen : sock.readyState = WS_OPEN) (hnow : now < 253402300800000) :
    (sendMessage st ty (Jsonv.obj fields) now).ws
      = some { sock with sent := sock.sent ++
          [Jsonv.obj [("type", Jsonv.str ty), ("payload", Jsonv.obj fields),
                      ("timestamp", Jsonv.str (toISOString now))]] }
    ∧ IsISO8601UTC (toISOString now) := by
  refine ⟨?_, toISOString_isISO8601 now hnow⟩
  simp [sendMessage, hws, hopen]

/-- Concrete instantiation of the envelope shape at the epoch. -/
theorem C7_sendMessage_sends_iso_envelope_witness :
    (sendMessage { initialWSState with ws := some { readyState := 1, sent := [] } }
        "create_task" (Jsonv.obj []) 0).ws
      = some { readyState := 1, sent :=
          [Jsonv.obj [("type", Jsonv.str "create_task"),
                      ("payload", Jsonv.obj []),
                      ("timestamp", Jsonv.str (toISOString 0))]] }
    ∧ IsISO8601UTC (toISOString 0) :=
  C7_sendMessage_sends_iso_envelope
    { initialWSState with ws := some { readyState := 1, sent := [] } }
    "create_task" [] 0 { readyState := 1, sent := [] } rfl rfl (by decide)

theorem sendMessage_noop_when_not_open (st : WSState) (ty : String)
    (payload : Jsonv) (now : Nat)
    (h : ∀ sock, st.ws = some sock → ¬ sock.readyState = WS_OPEN) :
    sendMessage st ty payload now = st := by
  unfold sendMessage
  cases hws : st.ws with
  | none => rfl
  | some sock => simp [h sock hws]

/-- Claim C9: when the socket is absent or not in the OPEN ready state,
sendMessage and each of the task operations built on it return the state
unchanged: nothing is sent, nothing is thrown (the functions are total),
and no field of the service changes. -/
theorem C9_send_is_noop_when_not_open (st : WSState) (ty : String)
    (payload task column projectId taskId updates fromColumn toColumn
      position : Jsonv) (now : Nat)
    (h : ∀ sock, st.ws = some sock → ¬ sock.readyState = WS_OPEN) :
    sendMessage st ty payload now = st
    ∧ createTask st task column projectId now = st
    ∧ updateTask st taskId updates projectId now = st
    ∧ moveTask st taskId fromColumn toColumn position projectId now = st
    ∧ deleteTask st taskId column projectId now = st
    ∧ requestBoardSync st projectId now = st :=
  ⟨sendMessage_noop_when_not_open st ty payload now h,
   sendMessage_noop_when_not_open st "create_task" _ now h,
   sendMessage_noop_when_not_open st "update_task" _ now h,
   sendMessage_noop_when_not_open st "move_task" _ now h,
   sendMessage_noop_when_not_open st "delete_task" _ now h,
   sendMessage_noop_when_not_open st "request_board_sync" _ now h⟩

/-- Concrete instantiation of the disconnected no-op behavior: the freshly
constructed service has no socket, so createTask sends nothing and changes
nothing. -/
theorem C9_send_is_noop_when_not_open_witness :
    sendMessage initialWSState "create_task" (Jsonv.obj []) 0 = initialWSState
    ∧ createTask initialWSState Jsonv.null Jsonv.null Jsonv.null 0
        = initialWSState :=
  let h := C9_send_is_noop_when_not_open initialWSState "create_task"
    (Jsonv.obj []) Jsonv.null Jsonv.null Jsonv.null Jsonv.null Jsonv.null
    Jsonv.null Jsonv.null Jsonv.null 0
    (fun sock hs => by simp [initialWSState] at hs)
  ⟨h.1, h.2.1⟩

/-- Claim C10: notifyListeners invokes every callback registered for the
event, in registration order (subscribe appends at the end), passing each
the event data; because each invocation is wrapped in its own try/catch, a
callback that throws does not prevent any later callback from running, and
no exception propagates to the caller (the result is a plain list of
outcomes). -/
theorem C10_notify_runs_all_callbacks_in_order
    (ls : Listeners) (event : String) (data : Jsonv)
    (cbs : List Callback) (cb : Callback)
    (h : jsGet ls event = some cbs) :
    notifyListeners ls event data = cbs.map (fun f => f data)
    ∧ (notifyListeners ls event data).length = cbs.length
    ∧ jsGet (subscribe ls event cb) event = some (cbs ++ [cb]) := by
  have hmap : notifyListeners ls event data = cbs.map (fun f => f data) := by
    unfold notifyListeners
    rw [h]
    exact runCallbacks_eq_map cbs data
  refine ⟨hmap, by rw [hmap]; simp, ?_⟩
  unfold subscribe
  rw [h]
  exact jsGet_jsSet_self ls event (cbs ++ [cb])

/-- Concrete instantiation with a throwing first callback: the second
callback still runs and the caller receives both outcomes instead of an
exception. -/
theorem C10_notify_runs_all_callbacks_in_order_witness :
    notifyListeners
        [("taskCreated",
          [fun _ => Except.error "boom", fun _ => Except.ok ()])]
        "taskCreated" Jsonv.null
      = [Except.error "boom", Except.ok ()] :=
  (C10_notify_runs_all_callbacks_in_order
    [("taskCreated", [fun _ => Except.error "boom", fun _ => Except.ok ()])]
    "taskCreated" Jsonv.null
    [fun _ => Except.error "boom", fun _ => Except.ok ()]
    (fun _ => Except.ok ()) rfl).1

/-- Concrete instantiation of the move invariant: moving task PA-1 from
TO DO to IN PROGRESS on the seeded project 1 board. -/
theorem C1_move_keeps_task_in_exactly_one_column_witness :
    jsKeys projectAData = columnNames
    ∧ "IN PROGRESS" ∈ columnNames
    ∧ taskCount projectAData "PA-1" = 1
    ∧ (moveTaskInBoard projectAData "PA-1" "TO DO" "IN PROGRESS").threw = false
    ∧ taskCount (moveTaskInBoard projectAData "PA-1" "TO DO" "IN PROGRESS").board
        "PA-1" = 1 := by
  have h := C1_move_keeps_task_in_exactly_one_column projectAData "PA-1"
    "TO DO" "IN PROGRESS" (by decide) (by decide) (by decide)
  exact ⟨by decide, by decide, by decide, h.1, h.2.1⟩
